import Mathlib

/-!
Verification of the `pybnn` Bohamiann trainer (`src/pybnn/bohamiann.py`).

The embedding models real-valued tensors as lists of rationals. The two
external float functions that the source calls (`torch.exp` / `np.exp`, and
the square root inside the normalization utility) are passed as explicit
function parameters, so every definition stays computable and the structural
claims hold for any instantiation of them. The external capabilities of the
design (network factory, sampler, model forward pass) are likewise passed in
as function parameters, exactly at the interface boundary the spec draws.

Python exceptions are modelled with an `Except` monad over an explicit error
type; a Python attribute that may be unset is an `Option` field.
-/

/-- One parameter tensor of the model, flattened to its list of entries. -/
abbrev Tensor : Type := List ℚ

/-- The ordered sequence of parameter tensors of the model
(`self.model.parameters()` in the source). -/
abbrev Params : Type := List Tensor

/-- The Python exceptions that the embedded code can raise. -/
inductive PyError : Type
  | assertionError
  | unboundLocalError
  | attributeError
  | indexError
deriving DecidableEq

/-- Mean of a list of rationals, `sum / length` (division by zero yields 0,
matching the degenerate-input caveat of the spec). -/
def listMean (v : List ℚ) : ℚ := v.sum / (v.length : ℚ)

/-- Population variance of a list of rationals (no Bessel correction,
matching `np.std`). -/
def listVariance (v : List ℚ) : ℚ :=
  ((v.map (fun x => (x - listMean v) ^ 2)).sum) / (v.length : ℚ)

/-- Modelled from the spec: `zero_mean_unit_var_normalization` for a 1-D
array is imported from `pybnn.util.normalization`, which is not in this
repository snapshot. Spec section 4.1: compute the array's mean and std and
return `((data - mean) / std, mean, std)`. The square root of the variance
is taken through the explicit `sqrt` parameter (float math is external). -/
def normalizeVec (sqrt : ℚ → ℚ) (v : List ℚ) : List ℚ × ℚ × ℚ :=
  let m := listMean v
  let s := sqrt (listVariance v)
  (v.map (fun x => (x - m) / s), m, s)

/-- Modelled from the spec: `zero_mean_unit_var_normalization` on a 2-D
array (`pybnn.util.normalization`, not in this snapshot). Spec section 4.1:
per-column mean and std over the given array, returning
`((data - mean) / std, mean, std)` columnwise. -/
def zero_mean_unit_var_normalization (sqrt : ℚ → ℚ) (data : List Tensor) :
    List Tensor × Tensor × Tensor :=
  let D := (data.headD []).length
  let cols := (List.range D).map (fun j => data.map (fun row => row.getD j 0))
  let means := cols.map listMean
  let stds := cols.map (fun c => sqrt (listVariance c))
  (data.map (fun row =>
      (List.range D).map (fun j => (row.getD j 0 - means.getD j 0) / stds.getD j 0)),
   means, stds)

/-- Modelled from the spec: `zero_mean_unit_var_unnormalization`
(`pybnn.util.normalization`, not in this snapshot). Spec section 4.1:
`unnormalize(data, mean, std)` computes `data * std + mean` (elementwise;
this is the scalar form, mapped over arrays at the call sites). -/
def zero_mean_unit_var_unnormalization (d m s : ℚ) : ℚ := d * s + m

/-- Modelled from the spec: the three-argument form
`zero_mean_unit_var_normalization(x_test, mean, std)` used by `predict`
applies the stored statistics as the standard transform `(x - mean) / std`
to every test row (spec section 4.6, step 1). -/
def normalizeWith (x : List Tensor) (mean std : Tensor) : List Tensor :=
  x.map (fun row =>
    (List.range row.length).map (fun j => (row.getD j 0 - mean.getD j 0) / std.getD j 0))

/-- The `network_weights` property getter (source lines 106-119): extract the
current parameter values as a tuple of fresh arrays, one per parameter
tensor. `torch.tensor(parameter.data).numpy()` copies every entry, so the
result is a deep copy: in the embedding, a new list holding the same
values. -/
def networkWeights (model : Params) : Params := model.map (fun t => t.map id)

/-- The trainer state. Attributes that Python only assigns inside `train`
(`model`, `x_mean`, `x_std`, `y_mean`, `y_std`) are `Option`s, `none` while
the attribute is still unset. -/
structure Bohamiann where
  batch_size : ℤ
  normalize_input : Bool
  normalize_output : Bool
  is_trained : Bool
  sampled_weights : List Params
  model : Option Params
  x_mean : Option Tensor
  x_std : Option Tensor
  y_mean : Option ℚ
  y_std : Option ℚ
deriving DecidableEq

/-- `Bohamiann.__init__` (source lines 65-104): assert `batch_size >= 1`,
then initialise the trainer with `is_trained = False` and an empty list of
sampled weights. A failed assertion raises `AssertionError`. -/
def Bohamiann.init (batch_size : ℤ) (normalize_input normalize_output : Bool) :
    Except PyError Bohamiann :=
  if 1 ≤ batch_size then
    .ok { batch_size := batch_size
          normalize_input := normalize_input
          normalize_output := normalize_output
          is_trained := false
          sampled_weights := []
          model := none
          x_mean := none
          x_std := none
          y_mean := none
          y_std := none }
  else .error .assertionError

/-- One iteration of the training loop at step index `t` (source lines
227-261). The whole numeric body of the iteration — mini-batch, loss,
backpropagation, `sampler.step()` — is the external sampler capability,
abstracted as the in-place parameter update `f t`. Afterwards, if
`t > num_burn_in_steps` and `(t - num_burn_in_steps) % keep_every == 0`,
the deep-copied current weights are appended to `sampled_weights`. -/
def trainStep (f : ℕ → Params → Params) (B K : ℕ) (t : ℕ)
    (st : Params × List Params) : Params × List Params :=
  let p := f t st.1
  if B < t ∧ (t - B) % K = 0 then (p, st.2 ++ [networkWeights p]) else (p, st.2)

/-- The training loop ran for the first `n` step indices `0, 1, ..., n - 1`
(the source drives steps with `islice(enumerate(train_loader), num_steps)`,
so step indices start at 0 and exactly `num_steps` iterations run). -/
def runLoop (f : ℕ → Params → Params) (B K : ℕ) :
    ℕ → Params × List Params → Params × List Params
  | 0, st => st
  | n + 1, st => trainStep f B K n (runLoop f B K n st)

/-- `Bohamiann.train` (source lines 151-263). Positional data follows the
source: `x_train`, `y_train`, `num_steps`, `keep_every`,
`num_burn_in_steps`. The network factory `get_network` and the sampler
update `f` are the external capabilities.

Faithful control flow: `sampled_weights` is cleared first; then
`x_train_, self.x_mean, self.x_std = zero_mean_unit_var_normalization(...)`
runs only under `if self.normalize_input:`, and the very next statement
`x_train_ = torch.from_numpy(x_train_).float()` reads `x_train_`, so when
input normalization is disabled Python raises `UnboundLocalError` there.
The same pattern repeats for `y_train_` under `if self.normalize_output:`.
Then the model is built for the observed input dimensionality and the loop
runs for `num_steps` steps, after which `is_trained` is set. -/
def Bohamiann.train (b : Bohamiann) (sqrt : ℚ → ℚ)
    (x_train : List Tensor) (y_train : List ℚ)
    (num_steps keep_every num_burn_in_steps : ℕ)
    (get_network : ℕ → Params) (f : ℕ → Params → Params) :
    Except PyError Bohamiann :=
  let b0 : Bohamiann := { b with sampled_weights := [] }
  match (if b0.normalize_input
         then .ok (zero_mean_unit_var_normalization sqrt x_train)
         else .error .unboundLocalError :
         Except PyError (List Tensor × Tensor × Tensor)) with
  | .error e => .error e
  | .ok (_x_train_, xm, xs) =>
    match (if b0.normalize_output
           then .ok (normalizeVec sqrt y_train)
           else .error .unboundLocalError :
           Except PyError (List ℚ × ℚ × ℚ)) with
    | .error e => .error e
    | .ok (_y_train_, ym, ys) =>
      let input_dimensionality := (x_train.headD []).length
      let model0 := get_network input_dimensionality
      let result := runLoop f num_burn_in_steps keep_every num_steps (model0, [])
      .ok { b0 with
              x_mean := some xm
              x_std := some xs
              y_mean := some ym
              y_std := some ys
              model := some result.1
              sampled_weights := result.2
              is_trained := true }

/-- The heteroscedastic Gaussian negative log-likelihood `nll` (source lines
47-61). `input` is the batch of network outputs, each row a pair of
predicted mean (column 0) and predicted log-variance (column 1); `target`
the batch of labels; `expf` stands for `torch.exp`. Per the source:
inverse variance `1 / (exp(l) + 1e-16)`, per-example log-likelihood
`-mse * (0.5 * inv_var) - 0.5 * l`, summed, divided by the batch size
`input.size(0)`, and negated. -/
def nll (expf : ℚ → ℚ) (input : List (ℚ × ℚ)) (target : List ℚ) : ℚ :=
  let batch_size : ℚ := (input.length : ℚ)
  let log_likelihood :=
    (List.zipWith
      (fun (o : ℚ × ℚ) (y : ℚ) =>
        -((y - o.1) ^ 2) * (1 / 2 * (1 / (expf o.2 + 1 / 10 ^ 16))) - 1 / 2 * o.2)
      input target).sum;
  -(log_likelihood / batch_size)

/-- The stacked network outputs of `predict` (source lines 277-280): for
every stored snapshot in order, restore it into the model through the
`network_weights` setter and run the forward pass on every test row. The
forward pass is the external network capability `forward`, a function of
the restored parameter values and the input row. -/
def networkOutputs (forward : Params → Tensor → ℚ × ℚ)
    (weights : List Params) (x : List Tensor) : List (List (ℚ × ℚ)) :=
  weights.map (fun w => x.map (fun row => forward w row))

/-- `mean_prediction` (source line 282): `np.mean(network_outputs[:, :, 0],
axis=0)` — for each test index, the arithmetic mean over the snapshot axis
of the predicted-mean column. -/
def ensembleMean (outputs : List (List (ℚ × ℚ))) : List ℚ :=
  (List.range (outputs.headD []).length).map
    (fun m => ((outputs.map (fun row => (row.getD m (0, 0)).1)).sum) / (outputs.length : ℚ))

/-- `variance_prediction` (source lines 285-286):
`np.mean(out[:, :, 0] ** 2 + np.exp(out[:, :, 1]), axis=0) -
mean_prediction ** 2`, the law-of-total-variance estimator. -/
def ensembleVariance (expf : ℚ → ℚ) (outputs : List (List (ℚ × ℚ))) : List ℚ :=
  (List.range (outputs.headD []).length).map
    (fun m =>
      ((outputs.map (fun row => (row.getD m (0, 0)).1 ^ 2 + expf (row.getD m (0, 0)).2)).sum)
          / (outputs.length : ℚ)
        - (((outputs.map (fun row => (row.getD m (0, 0)).1)).sum) / (outputs.length : ℚ)) ^ 2)

/-- The input-preparation prefix of `predict` (source lines 266-269): under
`if self.normalize_input:`, read `self.x_mean` and `self.x_std` — an
`AttributeError` if they were never assigned — and apply the standard
transform to the test rows; otherwise pass the rows through unchanged. -/
def predictInputs (b : Bohamiann) (x_test : List Tensor) : Except PyError (List Tensor) :=
  if b.normalize_input then
    match b.x_mean, b.x_std with
    | some m, some s => .ok (normalizeWith x_test m s)
    | _, _ => .error .attributeError
  else .ok x_test

/-- `Bohamiann.predict` (source lines 265-302). After input preparation,
the per-snapshot forward passes run (each restoring that snapshot into the
shared model, so the model is left holding the last snapshot); then
`np.array(...)` of the collected outputs is indexed as `[:, :, 0]`, which
raises `IndexError` when the array is not 3-D — that is, when the snapshot
store or the test batch is empty; then the ensemble moments are computed,
and under `if self.normalize_output:` the mean is un-normalized through
`zero_mean_unit_var_unnormalization` (reading `self.y_mean`/`self.y_std`)
and the variance is multiplied by `self.y_std ** 2`. Returns the new
trainer state together with the mean and variance arrays. -/
def Bohamiann.predict (b : Bohamiann) (expf : ℚ → ℚ)
    (forward : Params → Tensor → ℚ × ℚ) (x_test : List Tensor) :
    Except PyError (Bohamiann × List ℚ × List ℚ) :=
  match predictInputs b x_test with
  | .error e => .error e
  | .ok x_test_ =>
    let network_outputs := networkOutputs forward b.sampled_weights x_test_
    let b' : Bohamiann :=
      { b with model := b.sampled_weights.getLast?.elim b.model some }
    if b.sampled_weights = [] ∨ x_test_ = [] then .error .indexError
    else if b.normalize_output then
      match b.y_mean, b.y_std with
      | some ym, some ys =>
        .ok (b',
             (ensembleMean network_outputs).map
               (fun v => zero_mean_unit_var_unnormalization v ym ys),
             (ensembleVariance expf network_outputs).map (fun v => v * ys ^ 2))
      | _, _ => .error .attributeError
    else .ok (b', ensembleMean network_outputs, ensembleVariance expf network_outputs)

set_option linter.unusedVariables false

/-- Decidable equality of embedded Python results, so that concrete runs
can be checked by evaluation. -/
instance {ε α : Type} [DecidableEq ε] [DecidableEq α] : DecidableEq (Except ε α) := fun a b =>
  match a, b with
  | .error e, .error e' =>
    if h : e = e' then .isTrue (by rw [h]) else .isFalse (by simp [h])
  | .error _, .ok _ => .isFalse (by simp)
  | .ok _, .error _ => .isFalse (by simp)
  | .ok x, .ok y =>
    if h : x = y then .isTrue (by rw [h]) else .isFalse (by simp [h])

/-! ### Concrete fixtures used by the witnesses -/

/-- A freshly constructed trainer with the default flags
(`normalize_input=True`, `normalize_output=True`, `batch_size=20`). -/
def freshTrainer : Bohamiann :=
  { batch_size := 20, normalize_input := true, normalize_output := true,
    is_trained := false, sampled_weights := [], model := none,
    x_mean := none, x_std := none, y_mean := none, y_std := none }

/-- A small trained trainer state with one stored snapshot and no
normalization, used to exercise `predict` concretely. -/
def sampleTrainer : Bohamiann :=
  { batch_size := 20, normalize_input := false, normalize_output := false,
    is_trained := true, sampled_weights := [[[1]]], model := some [[1]],
    x_mean := none, x_std := none, y_mean := none, y_std := none }

/-- A small trained trainer state with output normalization statistics
`y_mean = 1`, `y_std = 2`, used to exercise un-normalization concretely. -/
def sampleTrainerNO : Bohamiann :=
  { batch_size := 20, normalize_input := false, normalize_output := true,
    is_trained := true, sampled_weights := [[[1]]], model := some [[1]],
    x_mean := none, x_std := none, y_mean := some 1, y_std := some 2 }

/-- The result of a small concrete training run: two 1-D datapoints,
`num_steps = 5`, `keep_every = 2`, `num_burn_in_steps = 1`, an identity
sampler update and a one-parameter network. -/
def trainedSmall : Bohamiann :=
  (Bohamiann.train freshTrainer (fun _ => 1) [[1], [2]] [1, 2] 5 2 1
    (fun _ => [[0]]) (fun _ p => p)).toOption.getD freshTrainer

/-! ### Helper lemmas -/

/-- Unfolding one iteration of the training loop. -/
theorem runLoop_succ (f : ℕ → Params → Params) (B K n : ℕ) (st : Params × List Params) :
    runLoop f B K (n + 1) st = trainStep f B K n (runLoop f B K n st) := rfl

/-- The number of loop step indices in `[0, n)` at which the training loop
records a snapshot. -/
def countRecorded (B K n : ℕ) : ℕ :=
  (List.range n).countP (fun t => decide (B < t ∧ (t - B) % K = 0))

theorem countRecorded_succ (B K n : ℕ) :
    countRecorded B K (n + 1) =
      countRecorded B K n + (if B < n ∧ (n - B) % K = 0 then 1 else 0) := by
  unfold countRecorded
  rw [List.range_succ, List.countP_append]
  by_cases h : B < n ∧ (n - B) % K = 0 <;> simp [h]

theorem runLoop_snd_length (f : ℕ → Params → Params) (B K n : ℕ) (st : Params × List Params) :
    (runLoop f B K n st).2.length = st.2.length + countRecorded B K n := by
  induction n with
  | zero => simp [runLoop, countRecorded]
  | succ n ih =>
    rw [runLoop_succ, countRecorded_succ]
    unfold trainStep
    by_cases h : B < n ∧ (n - B) % K = 0
    · simp [h, ih]
      omega
    · simp [h, ih]

theorem countRecorded_of_le (B K n : ℕ) (h : n ≤ B + 1) : countRecorded B K n = 0 := by
  induction n with
  | zero => simp [countRecorded]
  | succ n ih =>
    rw [countRecorded_succ, ih (by omega)]
    have : ¬(B < n ∧ (n - B) % K = 0) := by
      intro hc
      omega
    simp [this]

theorem countRecorded_closed (B K n : ℕ) :
    countRecorded B K n = if B < n then (n - B - 1) / K else 0 := by
  induction n with
  | zero => simp [countRecorded]
  | succ n ih =>
    rw [countRecorded_succ]
    by_cases hBn : B < n
    · have hBn1 : B < n + 1 := by omega
      rw [ih, if_pos hBn, if_pos hBn1]
      have hm : n - B - 1 + 1 = n + 1 - B - 1 := by omega
      rw [← hm, Nat.succ_div]
      have hdvd : K ∣ n - B - 1 + 1 ↔ (n - B) % K = 0 := by
        rw [show n - B - 1 + 1 = n - B by omega]
        exact Nat.dvd_iff_mod_eq_zero
      by_cases hc : (n - B) % K = 0
      · simp [hc, hdvd.mpr hc, hBn]
      · have : ¬ K ∣ n - B - 1 + 1 := fun hd => hc (hdvd.mp hd)
        simp [hc, this, hBn]
    · by_cases hBn1 : B < n + 1
      · have hnB : n = B := by omega
        rw [ih, if_neg hBn, if_pos hBn1]
        have : ¬(B < n ∧ (n - B) % K = 0) := by intro hc; omega
        simp [this, hnB]
      · rw [ih, if_neg hBn, if_neg hBn1]
        have : ¬(B < n ∧ (n - B) % K = 0) := by intro hc; omega
        simp [this]

/-- A successful `train` call requires both normalization flags (otherwise
the body raises) and produces exactly the state written at the end of
`train`: cleared-then-refilled snapshot store, the loop's final parameters,
the computed normalization statistics, and `is_trained = true`. -/
theorem train_ok_state (b b' : Bohamiann) (sqrt : ℚ → ℚ)
    (x : List Tensor) (y : List ℚ) (S K B : ℕ)
    (gn : ℕ → Params) (f : ℕ → Params → Params)
    (h : b.train sqrt x y S K B gn f = .ok b') :
    b.normalize_input = true ∧ b.normalize_output = true ∧
    b' = { b with
            sampled_weights := (runLoop f B K S (gn (x.headD []).length, [])).2,
            model := some (runLoop f B K S (gn (x.headD []).length, [])).1,
            x_mean := some (zero_mean_unit_var_normalization sqrt x).2.1,
            x_std := some (zero_mean_unit_var_normalization sqrt x).2.2,
            y_mean := some (normalizeVec sqrt y).2.1,
            y_std := some (normalizeVec sqrt y).2.2,
            is_trained := true } := by
  unfold Bohamiann.train at h
  cases hni : b.normalize_input
  · simp [hni] at h
  · cases hno : b.normalize_output
    · simp [hni, hno] at h
    · refine ⟨rfl, rfl, ?_⟩
      simp only [hni, hno, if_true] at h
      cases h
      rfl

/-! ### Claim theorems -/

/-- C1 (amended): for every successful `train` call with `num_steps = S`,
`keep_every = K >= 1` and `num_burn_in_steps = B`, the number of snapshots
stored in the weight snapshot store when `train` returns equals
`floor((S - B - 1) / K)` when `S > B` and `0` when `S <= B` (the spec's
`floor((S - B - 1) / K) + 1` overcounts by one, since the first recorded
step is `B + K`, not `B`). -/
theorem train_snapshot_count (b b' : Bohamiann) (sqrt : ℚ → ℚ)
    (x : List Tensor) (y : List ℚ) (S K B : ℕ)
    (gn : ℕ → Params) (f : ℕ → Params → Params)
    (hK : 1 ≤ K) (h : b.train sqrt x y S K B gn f = .ok b') :
    b'.sampled_weights.length = if B < S then (S - B - 1) / K else 0 := by
  obtain ⟨-, -, rfl⟩ := train_ok_state b b' sqrt x y S K B gn f h
  simpa [runLoop_snd_length] using countRecorded_closed B K S

/-- C1 (counterexample to the claim as stated): a concrete `train` call
with `num_steps = 150`, `keep_every = 10`, `num_burn_in_steps = 100` on a
two-point 1-D dataset stores 4 snapshots (steps 110, 120, 130, 140), not
the 5 = `floor((150 - 100 - 1) / 10) + 1` the spec's formula demands. -/
theorem train_snapshot_count_spec_counterexample :
    (Bohamiann.train freshTrainer (fun _ => 1) [[1], [2]] [1, 2] 150 10 100
        (fun _ => [[0]]) (fun _ p => p)).map (fun b => b.sampled_weights.length) = .ok 4
    ∧ (4 : ℕ) ≠ (150 - 100 - 1) / 10 + 1 := by
  constructor
  · decide
  · decide

/-- C1 (witness): the amended count formula evaluated on the concrete
five-step training run. -/
theorem train_snapshot_count_witness :
    trainedSmall.sampled_weights.length = if 1 < 5 then (5 - 1 - 1) / 2 else 0 :=
  train_snapshot_count freshTrainer trainedSmall (fun _ => 1) [[1], [2]] [1, 2] 5 2 1
    (fun _ => [[0]]) (fun _ p => p) (by decide) rfl

/-- C2: during every train call, the loop iteration at step index `t`
appends a snapshot to the store if and only if `t > num_burn_in_steps` and
`(t - num_burn_in_steps) % keep_every == 0`; at or before the burn-in
boundary nothing is ever recorded, regardless of `keep_every`; and the
store a successful `train` call returns is exactly the store the loop
builds from the fresh model, starting empty. -/
theorem snapshot_recorded_iff (f : ℕ → Params → Params) (B K t : ℕ)
    (st : Params × List Params) (b b' : Bohamiann) (sqrt : ℚ → ℚ)
    (x : List Tensor) (y : List ℚ) (S : ℕ) (gn : ℕ → Params)
    (hK : 1 ≤ K) (htr : b.train sqrt x y S K B gn f = .ok b') :
    b'.sampled_weights = (runLoop f B K S (gn (x.headD []).length, [])).2
    ∧ ((runLoop f B K (t + 1) st).2.length = (runLoop f B K t st).2.length + 1
        ↔ (B < t ∧ (t - B) % K = 0))
    ∧ (t ≤ B → (runLoop f B K (t + 1) st).2 = (runLoop f B K t st).2) := by
  obtain ⟨-, -, rfl⟩ := train_ok_state b b' sqrt x y S K B gn f htr
  refine ⟨rfl, ?_, ?_⟩
  · rw [runLoop_succ]
    unfold trainStep
    by_cases h : B < t ∧ (t - B) % K = 0
    · simp [h]
    · simp [h]
  · intro ht
    rw [runLoop_succ]
    unfold trainStep
    have h : ¬(B < t ∧ (t - B) % K = 0) := by intro hc; omega
    simp [h]

/-- C2 (witness): the recording rule evaluated concretely — in the small
run with `B = 1`, `K = 2`, step 3 records a snapshot (and the `iff` and the
burn-in guard hold at that instantiation). -/
theorem snapshot_recorded_iff_witness :
    trainedSmall.sampled_weights =
      (runLoop (fun _ p => p) 1 2 5 ((fun _ : ℕ => [[(0 : ℚ)]]) ([[(1 : ℚ)], [2]].headD []).length, [])).2
    ∧ ((runLoop (fun _ p => p) 1 2 (3 + 1) ([[(0 : ℚ)]], [])).2.length =
        (runLoop (fun _ p => p) 1 2 3 ([[(0 : ℚ)]], [])).2.length + 1
        ↔ (1 < 3 ∧ (3 - 1) % 2 = 0))
    ∧ (3 ≤ 1 → (runLoop (fun _ p => p) 1 2 (3 + 1) ([[(0 : ℚ)]], [])).2 =
        (runLoop (fun _ p => p) 1 2 3 ([[(0 : ℚ)]], [])).2) :=
  snapshot_recorded_iff (fun _ p => p) 1 2 3 ([[(0 : ℚ)]], []) freshTrainer trainedSmall
    (fun _ => 1) [[1], [2]] [1, 2] 5 (fun _ => [[0]]) (by decide) rfl

/-- C3 (code bug in the source): on a trainer constructed with input
(respectively output) normalization disabled, `train` never reaches the
training loop — the branch `if self.normalize_input:` is the only
assignment of `x_train_` (respectively `y_train_`), so the next statement
raises `UnboundLocalError` instead of passing the raw data through. -/
theorem train_without_normalization_raises (b : Bohamiann) (sqrt : ℚ → ℚ)
    (x : List Tensor) (y : List ℚ) (S K B : ℕ)
    (gn : ℕ → Params) (f : ℕ → Params → Params)
    (h : b.normalize_input = false ∨ b.normalize_output = false) :
    b.train sqrt x y S K B gn f = .error .unboundLocalError := by
  unfold Bohamiann.train
  rcases h with h | h
  · simp [h]
  · cases hni : b.normalize_input
    · simp [hni]
    · simp [hni, h]

/-- C3 (witness): the concrete failing input — a trainer with both
normalization flags disabled, trained on a tiny 1-D dataset. -/
theorem train_without_normalization_raises_witness :
    Bohamiann.train sampleTrainer (fun _ => 1) [[1], [2]] [1, 2] 5 2 1
      (fun _ => [[0]]) (fun _ p => p) = .error .unboundLocalError :=
  train_without_normalization_raises sampleTrainer (fun _ => 1) [[1], [2]] [1, 2] 5 2 1
    (fun _ => [[0]]) (fun _ p => p) (Or.inl rfl)

/-- C4: `predict` on a freshly constructed trainer (no successful `train`
call yet: `is_trained` false, empty snapshot store, no stored statistics)
raises for every test input instead of returning numeric output — an
`AttributeError` on the missing `x_mean` when input normalization is on,
and an `IndexError` at `network_outputs[:, :, 0]` otherwise. -/
theorem predict_untrained_errors (bs : ℤ) (ni no : Bool) (b : Bohamiann)
    (expf : ℚ → ℚ) (fwd : Params → Tensor → ℚ × ℚ) (x : List Tensor)
    (h : Bohamiann.init bs ni no = .ok b) :
    ∃ e, b.predict expf fwd x = .error e := by
  unfold Bohamiann.init at h
  by_cases hbs : 1 ≤ bs
  · rw [if_pos hbs] at h
    cases h
    unfold Bohamiann.predict predictInputs
    cases ni
    · exact ⟨.indexError, by simp⟩
    · exact ⟨.attributeError, by simp⟩
  · rw [if_neg hbs] at h
    exact absurd h (by simp)

/-- C4 (witness): `predict` on a freshly constructed default trainer with a
one-row test input fails. -/
theorem predict_untrained_errors_witness :
    ∃ e, freshTrainer.predict (fun _ => 1) (fun _ _ => (1, 0)) [[1]] = .error e :=
  predict_untrained_errors 20 true true freshTrainer (fun _ => 1) (fun _ _ => (1, 0)) [[1]]
    (by decide)

/-- C8: constructing a trainer with `batch_size < 1` fails immediately with
the constructor's `AssertionError` and no trainer object ever exists for
such a configuration (so no training loop can start), while construction
with `batch_size >= 1` succeeds, yielding the untrained initial state. -/
theorem init_batch_size_precondition (bs : ℤ) (ni no : Bool) :
    (1 ≤ bs → Bohamiann.init bs ni no =
        .ok { batch_size := bs, normalize_input := ni, normalize_output := no,
              is_trained := false, sampled_weights := [], model := none,
              x_mean := none, x_std := none, y_mean := none, y_std := none })
    ∧ (bs < 1 → Bohamiann.init bs ni no = .error .assertionError
        ∧ ∀ b : Bohamiann, Bohamiann.init bs ni no ≠ .ok b) := by
  constructor
  · intro h
    simp [Bohamiann.init, h]
  · intro h
    have hbs : ¬ (1 ≤ bs) := by omega
    refine ⟨by simp [Bohamiann.init, hbs], fun b => by simp [Bohamiann.init, hbs]⟩

/-- C8 (witness): `batch_size = 0` is rejected with `AssertionError`;
`batch_size = 20` is accepted. -/
theorem init_batch_size_precondition_witness :
    Bohamiann.init 0 true true = .error .assertionError
    ∧ Bohamiann.init 20 true true =
        .ok { batch_size := 20, normalize_input := true, normalize_output := true,
              is_trained := false, sampled_weights := [], model := none,
              x_mean := none, x_std := none, y_mean := none, y_std := none } :=
  ⟨((init_batch_size_precondition 0 true true).2 (by decide)).1,
   (init_batch_size_precondition 20 true true).1 (by decide)⟩

/-- A successful `predict` call leaves the trainer unchanged except that the
live model now holds the last restored snapshot, and requires a non-empty
snapshot store. -/
theorem predict_ok_state (b b' : Bohamiann) (expf : ℚ → ℚ)
    (fwd : Params → Tensor → ℚ × ℚ) (x : List Tensor) (mean var : List ℚ)
    (hp : b.predict expf fwd x = .ok (b', mean, var)) :
    b' = { b with model := b.sampled_weights.getLast?.elim b.model some }
    ∧ b.sampled_weights ≠ [] := by
  unfold Bohamiann.predict at hp
  cases hpi : predictInputs b x with
  | error e =>
    rw [hpi] at hp
    exact absurd hp (by simp)
  | ok xin =>
    rw [hpi] at hp
    dsimp only at hp
    by_cases hemp : b.sampled_weights = [] ∨ xin = []
    · rw [if_pos hemp] at hp
      exact absurd hp (by simp)
    · rw [if_neg hemp] at hp
      push_neg at hemp
      refine ⟨?_, hemp.1⟩
      by_cases hno : b.normalize_output
      · rw [if_pos hno] at hp
        cases hym : b.y_mean <;> cases hys : b.y_std <;> rw [hym, hys] at hp
        · exact absurd hp (by simp)
        · exact absurd hp (by simp)
        · exact absurd hp (by simp)
        · simp only [Except.ok.injEq, Prod.mk.injEq] at hp
          exact hp.1.symm
      · rw [if_neg hno] at hp
        simp only [Except.ok.injEq, Prod.mk.injEq] at hp
        exact hp.1.symm

/-- Snapshots already stored after `n` loop iterations are still there,
unmodified and in the same positions, after any `m` further iterations:
the stored list after `n` steps is an initial segment of the stored list
after `n + m` steps. -/
theorem runLoop_snapshots_monotone (f : ℕ → Params → Params) (B K n m : ℕ)
    (st : Params × List Params) :
    ∃ tail, (runLoop f B K n st).2 ++ tail = (runLoop f B K (n + m) st).2 := by
  induction m with
  | zero => exact ⟨[], by simp⟩
  | succ m ih =>
    obtain ⟨tail, htail⟩ := ih
    rw [show n + (m + 1) = (n + m) + 1 by ring, runLoop_succ]
    unfold trainStep
    by_cases h : B < n + m ∧ (n + m - B) % K = 0
    · exact ⟨tail ++ [networkWeights (f (n + m) (runLoop f B K (n + m) st).1)],
        by rw [← List.append_assoc, htail]; simp [h]⟩
    · exact ⟨tail, by rw [htail]; simp [h]⟩

/-- C9: a stored snapshot is never changed afterwards — the store built by
the first `n` loop iterations is an initial segment of the store after any
`m` further sampler steps (later in-place parameter updates only append),
and the weight restorations performed by a `predict` call leave the stored
snapshots exactly as they were. -/
theorem snapshots_immutable (f : ℕ → Params → Params) (B K n m : ℕ)
    (st : Params × List Params) (b b' : Bohamiann) (expf : ℚ → ℚ)
    (fwd : Params → Tensor → ℚ × ℚ) (x : List Tensor) (mean var : List ℚ)
    (hp : b.predict expf fwd x = .ok (b', mean, var)) :
    (∃ tail, (runLoop f B K n st).2 ++ tail = (runLoop f B K (n + m) st).2)
    ∧ b'.sampled_weights = b.sampled_weights := by
  obtain ⟨rfl, -⟩ := predict_ok_state b b' expf fwd x mean var hp
  exact ⟨runLoop_snapshots_monotone f B K n m st, rfl⟩

/-- The result of a small concrete `predict` call on `sampleTrainer`. -/
def predictedSmall : Bohamiann × List ℚ × List ℚ :=
  (sampleTrainer.predict (fun _ => 1) (fun _ _ => (1, 0)) [[5]]).toOption.getD
    (sampleTrainer, [], [])

/-- C9 (witness): the initial-segment property and the predict-preservation
property evaluated on the concrete run. -/
theorem snapshots_immutable_witness :
    (∃ tail, (runLoop (fun _ p => p) 1 2 3 ([[(0 : ℚ)]], [])).2 ++ tail =
        (runLoop (fun _ p => p) 1 2 (3 + 2) ([[(0 : ℚ)]], [])).2)
    ∧ predictedSmall.1.sampled_weights = sampleTrainer.sampled_weights :=
  snapshots_immutable (fun _ p => p) 1 2 3 2 ([[(0 : ℚ)]], []) sampleTrainer
    predictedSmall.1 (fun _ => 1) (fun _ _ => (1, 0)) [[5]]
    predictedSmall.2.1 predictedSmall.2.2 rfl

/-- C10: when `predict` returns on a trainer with a non-empty snapshot
store, the live model holds exactly the last stored snapshot (snapshots are
restored into the single shared model in insertion order, so the last one
wins), while the snapshot store, the normalization statistics, the
normalization flags and the `is_trained` flag are untouched. -/
theorem predict_frame_effects (b b' : Bohamiann) (expf : ℚ → ℚ)
    (fwd : Params → Tensor → ℚ × ℚ) (x : List Tensor) (mean var : List ℚ)
    (hp : b.predict expf fwd x = .ok (b', mean, var)) :
    (∃ w, b.sampled_weights.getLast? = some w ∧ b'.model = some w)
    ∧ b'.sampled_weights = b.sampled_weights
    ∧ b'.x_mean = b.x_mean ∧ b'.x_std = b.x_std
    ∧ b'.y_mean = b.y_mean ∧ b'.y_std = b.y_std
    ∧ b'.is_trained = b.is_trained
    ∧ b'.normalize_input = b.normalize_input
    ∧ b'.normalize_output = b.normalize_output := by
  obtain ⟨rfl, hne⟩ := predict_ok_state b b' expf fwd x mean var hp
  cases hl : b.sampled_weights.getLast? with
  | none => exact absurd (List.getLast?_eq_none_iff.mp hl) hne
  | some w => exact ⟨⟨w, rfl, by simp [hl]⟩, rfl, rfl, rfl, rfl, rfl, rfl, rfl, rfl⟩

/-- C10 (witness): the frame conditions evaluated on the concrete `predict`
run over `sampleTrainer`. -/
theorem predict_frame_effects_witness :
    (∃ w, sampleTrainer.sampled_weights.getLast? = some w
        ∧ predictedSmall.1.model = some w)
    ∧ predictedSmall.1.sampled_weights = sampleTrainer.sampled_weights
    ∧ predictedSmall.1.x_mean = sampleTrainer.x_mean
    ∧ predictedSmall.1.x_std = sampleTrainer.x_std
    ∧ predictedSmall.1.y_mean = sampleTrainer.y_mean
    ∧ predictedSmall.1.y_std = sampleTrainer.y_std
    ∧ predictedSmall.1.is_trained = sampleTrainer.is_trained
    ∧ predictedSmall.1.normalize_input = sampleTrainer.normalize_input
    ∧ predictedSmall.1.normalize_output = sampleTrainer.normalize_output :=
  predict_frame_effects sampleTrainer predictedSmall.1 (fun _ => 1) (fun _ _ => (1, 0))
    [[5]] predictedSmall.2.1 predictedSmall.2.2 rfl

/-- C5: for a batch of network outputs (mean column, log-variance column)
and a target vector of the same batch size `n`, the loss computed by `nll`
equals the negative mean per-example Gaussian log-likelihood
`-(1/n) * sum (-0.5 * (y - mu)^2 / (exp(l) + 1e-16) - 0.5 * l)`,
for every instantiation of the exponential. -/
theorem nll_negative_mean_loglik (expf : ℚ → ℚ) (input : List (ℚ × ℚ)) (target : List ℚ)
    (h : input.length = target.length) :
    nll expf input target =
      -(1 / (input.length : ℚ)) *
        (List.zipWith
          (fun (o : ℚ × ℚ) (y : ℚ) =>
            -(1 / 2) * (y - o.1) ^ 2 * (1 / (expf o.2 + 1 / 10 ^ 16)) - 1 / 2 * o.2)
          input target).sum := by
  unfold nll
  have hfe : (fun (o : ℚ × ℚ) (y : ℚ) =>
        -((y - o.1) ^ 2) * (1 / 2 * (1 / (expf o.2 + 1 / 10 ^ 16))) - 1 / 2 * o.2)
      = (fun (o : ℚ × ℚ) (y : ℚ) =>
        -(1 / 2) * (y - o.1) ^ 2 * (1 / (expf o.2 + 1 / 10 ^ 16)) - 1 / 2 * o.2) := by
    funext o y
    ring
  rw [hfe]
  ring

/-- C5 (witness): the identity instantiated at a one-element batch with
predicted mean 1, predicted log-variance 0 and target 2. -/
theorem nll_negative_mean_loglik_witness :
    nll (fun _ => 1) [((1 : ℚ), (0 : ℚ))] [(2 : ℚ)] =
      -(1 / (([((1 : ℚ), (0 : ℚ))] : List (ℚ × ℚ)).length : ℚ)) *
        (List.zipWith
          (fun (o : ℚ × ℚ) (y : ℚ) =>
            -(1 / 2) * (y - o.1) ^ 2 * (1 / ((fun _ : ℚ => (1 : ℚ)) o.2 + 1 / 10 ^ 16)) - 1 / 2 * o.2)
          [((1 : ℚ), (0 : ℚ))] [(2 : ℚ)]).sum :=
  nll_negative_mean_loglik (fun _ => 1) [((1 : ℚ), (0 : ℚ))] [(2 : ℚ)] rfl

/-- C6: for a non-empty list of snapshot outputs at a single test point,
the ensemble mean computed by `predict` is the arithmetic mean across
snapshots of the predicted-mean column and the ensemble variance is the
mean of `mu^2 + exp(l)` minus the squared ensemble mean; on the concrete
two-snapshot instance with means 1 and 3 and log-variances 0 (so that
`exp(0) = 1`), this yields ensemble mean 2 and ensemble variance 2. -/
theorem ensemble_moments_formula (expf : ℚ → ℚ) (col : List (ℚ × ℚ))
    (hne : col ≠ []) (h0 : expf 0 = 1) :
    ensembleMean (col.map (fun o => [o]))
      = [(col.map Prod.fst).sum / (col.length : ℚ)]
    ∧ ensembleVariance expf (col.map (fun o => [o]))
      = [(col.map (fun o => o.1 ^ 2 + expf o.2)).sum / (col.length : ℚ)
          - ((col.map Prod.fst).sum / (col.length : ℚ)) ^ 2]
    ∧ ensembleMean [[((1 : ℚ), (0 : ℚ))], [(3, 0)]] = [2]
    ∧ ensembleVariance expf [[((1 : ℚ), (0 : ℚ))], [(3, 0)]] = [2] := by
  refine ⟨?_, ?_, ?_, ?_⟩
  · cases col with
    | nil => exact absurd rfl hne
    | cons a l =>
      have h1 : ((fun row : List (ℚ × ℚ) => ((row[0]?).getD (0 : ℚ × ℚ)).1) ∘ fun o => [o])
          = Prod.fst := by
        funext o
        rfl
      simp [ensembleMean, List.map_map, List.range_succ, h1]
  · cases col with
    | nil => exact absurd rfl hne
    | cons a l =>
      have h1 : ((fun row : List (ℚ × ℚ) => ((row[0]?).getD (0 : ℚ × ℚ)).1) ∘ fun o => [o])
          = Prod.fst := by
        funext o
        rfl
      have h2 : ((fun row : List (ℚ × ℚ) =>
            ((row[0]?).getD (0 : ℚ × ℚ)).1 ^ 2 + expf ((row[0]?).getD (0 : ℚ × ℚ)).2) ∘
            fun o => [o])
          = fun o => o.1 ^ 2 + expf o.2 := by
        funext o
        rfl
      simp [ensembleVariance, List.map_map, List.range_succ, h1, h2]
  · norm_num [ensembleMean, List.range_succ]
  · norm_num [ensembleVariance, List.range_succ, h0]

/-- C6 (witness): the concrete two-snapshot instance — means 1 and 3,
log-variances 0 — yields ensemble mean 2 and ensemble variance 2. -/
theorem ensemble_moments_formula_witness :
    ensembleMean [[((1 : ℚ), (0 : ℚ))], [(3, 0)]] = [2]
    ∧ ensembleVariance (fun _ => 1) [[((1 : ℚ), (0 : ℚ))], [(3, 0)]] = [2] :=
  ⟨(ensemble_moments_formula (fun _ => 1) [((1 : ℚ), (0 : ℚ)), (3, 0)] (by decide) rfl).2.2.1,
   (ensemble_moments_formula (fun _ => 1) [((1 : ℚ), (0 : ℚ)), (3, 0)] (by decide) rfl).2.2.2⟩

/-- C7: on a trainer whose output normalization is enabled (stored output
statistics `y_mean`, `y_std`), a successful `predict` returns as mean the
affine un-normalization `raw_mean * y_std + y_mean` of the raw ensemble
mean, and as variance exactly the raw ensemble variance multiplied by
`y_std ^ 2`, where the raw ensemble moments are those computed from the
stacked per-snapshot network outputs on the prepared inputs. -/
theorem predict_output_unnormalization (b b' : Bohamiann) (expf : ℚ → ℚ)
    (fwd : Params → Tensor → ℚ × ℚ) (x xin : List Tensor)
    (ym ys : ℚ) (mean var : List ℚ)
    (hno : b.normalize_output = true) (hym : b.y_mean = some ym) (hys : b.y_std = some ys)
    (hx : predictInputs b x = .ok xin)
    (hp : b.predict expf fwd x = .ok (b', mean, var)) :
    mean = (ensembleMean (networkOutputs fwd b.sampled_weights xin)).map
        (fun r => r * ys + ym)
    ∧ var = (ensembleVariance expf (networkOutputs fwd b.sampled_weights xin)).map
        (fun v => v * ys ^ 2) := by
  unfold Bohamiann.predict at hp
  rw [hx] at hp
  dsimp only at hp
  by_cases hemp : b.sampled_weights = [] ∨ xin = []
  · rw [if_pos hemp] at hp
    exact absurd hp (by simp)
  · rw [if_neg hemp, if_pos hno, hym, hys] at hp
    simp only [Except.ok.injEq, Prod.mk.injEq] at hp
    obtain ⟨-, hm, hv⟩ := hp
    constructor
    · rw [← hm]
      simp [zero_mean_unit_var_unnormalization]
    · exact hv.symm

/-- The result of a concrete `predict` call on the output-normalizing
trainer `sampleTrainerNO`. -/
def predictedSmallNO : Bohamiann × List ℚ × List ℚ :=
  (sampleTrainerNO.predict (fun _ => 1) (fun _ _ => (1, 0)) [[0]]).toOption.getD
    (sampleTrainerNO, [], [])

/-- C7 (witness): the un-normalization relations evaluated on the concrete
run over `sampleTrainerNO` (`y_mean = 1`, `y_std = 2`). -/
theorem predict_output_unnormalization_witness :
    predictedSmallNO.2.1 =
      (ensembleMean (networkOutputs (fun _ _ => ((1 : ℚ), (0 : ℚ)))
          sampleTrainerNO.sampled_weights [[0]])).map (fun r => r * 2 + 1)
    ∧ predictedSmallNO.2.2 =
      (ensembleVariance (fun _ => (1 : ℚ)) (networkOutputs (fun _ _ => ((1 : ℚ), (0 : ℚ)))
          sampleTrainerNO.sampled_weights [[0]])).map (fun v => v * 2 ^ 2) :=
  predict_output_unnormalization sampleTrainerNO predictedSmallNO.1 (fun _ => 1)
    (fun _ _ => (1, 0)) [[0]] [[0]] 1 2 predictedSmallNO.2.1 predictedSmallNO.2.2
    rfl rfl rfl rfl rfl
